import Mathlib

/-!
Verification development for the Eye_tracking repository.

Shallow embedding of the perception-to-alarm core:
pupil localization (pupil.py), per-eye open/closed classification and
fusion (core.py), and the OutOfFrameMonitor state machine (modelled from
the specification, since safety_monitor.py is not part of the sources).

Modelling conventions:
- grayscale images are lists of rows of rational pixel values;
- Python float arithmetic is modelled by exact rational arithmetic;
  the float constant np.pi is modelled by a fixed rational approximation
  and np.sqrt by a deterministic rational square-root approximation;
- OpenCV library primitives (contour extraction, geometric fits, the
  point-in-polygon test, image filtering) are external collaborators and
  are modelled as abstract fields of a CvGeom record, so every theorem
  quantifies over their behaviour;
- fallible values are Option; an absent pupil field is none.
-/

/- ======================= basic data model ======================= -/

/-- A grayscale image: a list of rows of pixel intensities. -/
abbrev Mat := List (List ℚ)

/-- A contour: a list of integer pixel coordinates. -/
abbrev Contour := List (ℤ × ℤ)

/-- Number of rows of an image (numpy shape component 0). -/
def matH (m : Mat) : Nat := m.length

/-- Number of columns of an image (numpy shape component 1). -/
def matW (m : Mat) : Nat := (m.head?.getD []).length

/-- Total number of pixels (numpy size). -/
def matSize (m : Mat) : Nat := (m.map List.length).sum

/-- Maximum of a list of rationals (numpy max on a nonempty array). -/
def listMax (l : List ℚ) : ℚ := l.foldl max (l.head?.getD 0)

/-- Arithmetic mean of a list of rationals (numpy mean). -/
def listMean (l : List ℚ) : ℚ := l.sum / (l.length : ℚ)

/-- Population variance of a list of rationals (numpy var). -/
def listVar (l : List ℚ) : ℚ :=
  listMean (l.map (fun x => (x - listMean l) ^ 2))

/-- Rational model of the float constant np.pi. -/
def piQ : ℚ := 3141592653589793 / 1000000000000000

/-- Deterministic rational model of np.sqrt: a fixed-precision
nonnegative square-root approximation; nonpositive inputs give 0. -/
def ratSqrt (q : ℚ) : ℚ :=
  ((Nat.sqrt (q.num.toNat * q.den * 1000000000000) : ℤ) : ℚ) / ((q.den : ℚ) * 1000000)

/-- Python int truncation toward zero of a rational. -/
def pyTrunc (q : ℚ) : ℤ := if 0 ≤ q then ⌊q⌋ else -⌊-q⌋

/-- Configuration values read by the classifier from config.py. -/
structure Config where
  useTrackerEyeState : Bool
  useMultiMethodDetection : Bool
  earThresholdClosed : ℚ
  histogramThreshold : ℚ
  contourAreaThreshold : ℚ

/-- The values of config.py: USE_TRACKER_EYE_STATE = True,
USE_MULTI_METHOD_DETECTION = True, EAR_THRESHOLD_CLOSED = 0.18,
HISTOGRAM_THRESHOLD = 0.2, CONTOUR_AREA_THRESHOLD = 0.05. -/
def defaultConfig : Config :=
  { useTrackerEyeState := true
    useMultiMethodDetection := true
    earThresholdClosed := 18 / 100
    histogramThreshold := 2 / 10
    contourAreaThreshold := 5 / 100 }

/-- Abstract model of the OpenCV primitives the core calls. Each field
stands for one external library routine; theorems quantify over them. -/
structure CvGeom where
  imageProcessing : Mat → Mat
  findContoursTree : Mat → List Contour
  findContoursExternal : Mat → List Contour
  otsuThreshold : Mat → Mat
  contourArea : Contour → ℚ
  moments : Contour → ℚ × ℚ × ℚ
  arcLength : Contour → ℚ
  minEnclosingCircleRadius : Contour → ℚ
  boundingRect : Contour → ℚ × ℚ
  fitEllipse : Contour → Option (ℚ × ℚ)
  pointPolygonTest : Contour → ℚ × ℚ → ℚ

/- ======================= EAR and eye state (core.py) ======================= -/

/-- Embedding of GazeTracking._calculate_improved_ear (core.py lines 291-338):
the horizontal-intensity-projection eye-openness ratio. -/
def calcImprovedEar (m : Mat) : Option ℚ :=
  if matSize m = 0 then none else
  let h := matH m
  let w := matW m
  if w = 0 ∨ h = 0 then none else
  let proj := m.map (fun row => row.sum)
  let midH := h / 2
  let top := proj.take midH
  let bottom := proj.drop midH
  if top.length = 0 ∨ bottom.length = 0 then none else
  let topMax := listMax top
  let bottomMax := listMax bottom
  let vert := |topMax - bottomMax| / (listMean proj + 1 / 1000000)
  if w = 0 then none else
  some (vert / (2 * (w : ℚ)) * ((h : ℚ) / (w : ℚ)))

/-- True when the EAR value is present and below the closed threshold
(the corroboration clause used by the secondary methods). -/
def earCorroborates (e : Option ℚ) (cfg : Config) : Bool :=
  match e with
  | some v => decide (v < cfg.earThresholdClosed)
  | none => false

/-- Total foreground contour area over frame area, from the Otsu-threshold
external contours (method 4 of _detect_eye_state_advanced). -/
def contourAreaFrac (g : CvGeom) (m : Mat) : ℚ :=
  let cs := g.findContoursExternal (g.otsuThreshold m)
  let total := (cs.map g.contourArea).sum
  let frameArea := ((matH m * matW m : Nat) : ℚ)
  if 0 < frameArea then total / frameArea else 0

/-- Normalized histogram variance used by method 3 of
_detect_eye_state_advanced. -/
def histNormalized (m : Mat) : ℚ :=
  listVar m.flatten / (listMax m.flatten + 1 / 1000000)

/-- Embedding of GazeTracking._detect_eye_state_advanced (core.py lines
216-289). The tracker response (tr) models self.tracker.get_eye_state:
none covers both a None return and a swallowed exception. Returns 1 for
open, 0 for closed. The unconditional return of the tracker state after
a failed EAR corroboration is embedded exactly as the code has it. -/
def detectEyeStateAdvanced (g : CvGeom) (cfg : Config) (tr : Option Nat)
    (f : Option Mat) : Nat :=
  match f with
  | none => 1
  | some m =>
    if matSize m = 0 then 1 else
    match (if cfg.useTrackerEyeState then tr else none) with
    | some ts =>
      if ts = 0 then
        match calcImprovedEar m with
        | some v => if v < cfg.earThresholdClosed then 0 else ts
        | none => ts
      else ts
    | none =>
      match calcImprovedEar m with
      | some v => if v < cfg.earThresholdClosed then 0 else 1
      | none =>
        if cfg.useMultiMethodDetection
            && decide (0 < listMax m.flatten)
            && decide (histNormalized m < cfg.histogramThreshold)
            && earCorroborates (calcImprovedEar m) cfg
        then 0
        else if cfg.useMultiMethodDetection
            && !(g.findContoursExternal (g.otsuThreshold m)).isEmpty
            && decide (contourAreaFrac g m < cfg.contourAreaThreshold)
            && earCorroborates (calcImprovedEar m) cfg
        then 0
        else 1

/- ======================= per-eye state and fusion ======================= -/

/-- A pupil estimate: local coordinates and diameter, each possibly absent. -/
structure PupilResult where
  x : Option ℚ
  y : Option ℚ
  diameter : Option ℚ
deriving DecidableEq

/-- The all-absent pupil estimate. -/
def absentPupil : PupilResult := ⟨none, none, none⟩

/-- One eye as GazeTracking holds it: the cropped frame and the pupil. -/
structure EyeR where
  frame : Option Mat
  pupil : Option PupilResult

/-- The per-frame state of GazeTracking that the eye-state methods read.
trackerEyeState models self.tracker.get_eye_state on an eye frame. -/
structure GazeState where
  eyeLeft : Option EyeR
  eyeRight : Option EyeR
  trackerEyeState : Mat → Option Nat

/-- Embedding of GazeTracking.pupils_located (core.py lines 48-62). -/
def pupilsLocated (st : GazeState) : Bool :=
  match st.eyeLeft, st.eyeRight with
  | some el, some er =>
    match el.pupil, er.pupil with
    | some pl, some pr => pl.x.isSome && pl.y.isSome && pr.x.isSome && pr.y.isSome
    | _, _ => false
  | _, _ => false

/-- Embedding of GazeTracking._get_eye_region_frame (core.py lines 210-214). -/
def getEyeRegionFrame (e : Option EyeR) : Option Mat :=
  match e with
  | none => none
  | some er => er.frame

/-- Embedding of GazeTracking.left_eye_state (core.py lines 340-358). -/
def leftEyeState (g : CvGeom) (cfg : Config) (st : GazeState) : Nat :=
  let shortcut :=
    match st.eyeLeft with
    | some el =>
      match el.pupil with
      | some p => pupilsLocated st && p.x.isSome && p.y.isSome
      | none => false
    | none => false
  if shortcut then 1
  else
    match getEyeRegionFrame st.eyeLeft with
    | some f => detectEyeStateAdvanced g cfg (st.trackerEyeState f) (some f)
    | none => 1

/-- Embedding of GazeTracking.right_eye_state (core.py lines 360-378). -/
def rightEyeState (g : CvGeom) (cfg : Config) (st : GazeState) : Nat :=
  let shortcut :=
    match st.eyeRight with
    | some er =>
      match er.pupil with
      | some p => pupilsLocated st && p.x.isSome && p.y.isSome
      | none => false
    | none => false
  if shortcut then 1
  else
    match getEyeRegionFrame st.eyeRight with
    | some f => detectEyeStateAdvanced g cfg (st.trackerEyeState f) (some f)
    | none => 1

/-- Embedding of GazeTracking.is_blinking (core.py lines 380-389). -/
def isBlinking (g : CvGeom) (cfg : Config) (st : GazeState) : Bool :=
  (leftEyeState g cfg st == 0) || (rightEyeState g cfg st == 0)

/-- Embedding of GazeTracking.eye_state (core.py lines 391-398). -/
def eyeState (g : CvGeom) (cfg : Config) (st : GazeState) : Nat :=
  if isBlinking g cfg st then 0 else 1

/- ======================= pupil.py embedding ======================= -/

/-- The four diameter estimators computed by Pupil.calculate_diameter on a
contour: minimum-enclosing-circle diameter, bounding-box longer side,
area-equivalent-circle diameter, fitted-ellipse major axis with fallback
to the circle diameter when the ellipse fit raises. -/
def estimatorsOfContour (g : CvGeom) (c : Contour) : List ℚ :=
  let diameterCircle := g.minEnclosingCircleRadius c * 2
  let diameterBox := max (g.boundingRect c).1 (g.boundingRect c).2
  let area := g.contourArea c
  let diameterArea := if 0 < area then 2 * ratSqrt (area / piQ) else 0
  let diameterEllipse :=
    match g.fitEllipse c with
    | some p => max p.1 p.2
    | none => diameterCircle
  [diameterCircle, diameterBox, diameterArea, diameterEllipse]

/-- Embedding of Pupil.calculate_diameter (pupil.py lines 164-209). -/
def calculate_diameter (g : CvGeom) (c : Option Contour) : Option ℚ :=
  match c with
  | none => none
  | some c =>
    if c.length < 5 then none else
    let diameters := (estimatorsOfContour g c).filter (fun d => 0 < d)
    if 0 < diameters.length then some (listMean diameters) else none

/-- Candidate data carried through detect_iris filtering:
contour, area, centroid cx, centroid cy. -/
abbrev CandData := Contour × ℚ × ℤ × ℤ

/-- The per-contour filter of Pupil.detect_iris (pupil.py lines 104-134):
size bounds, nonzero moment, horizontal centrality, nonzero perimeter,
circularity at least 0.3. -/
def candFilter (g : CvGeom) (roiW roiH : Nat) (c : Contour) : Option CandData :=
  let area := g.contourArea c
  let minArea := ((roiW * roiH : Nat) : ℚ) * (1 / 100)
  let maxArea := ((roiW * roiH : Nat) : ℚ) * (3 / 10)
  if area < minArea ∨ maxArea < area then none else
  let m00 := (g.moments c).1
  if m00 = 0 then none else
  let cx := pyTrunc ((g.moments c).2.1 / m00)
  let cy := pyTrunc ((g.moments c).2.2 / m00)
  let centerX := (roiW : ℤ) / 2
  if ((roiW : ℚ) * (4 / 10)) < ((|cx - centerX| : ℤ) : ℚ) then none else
  let per := g.arcLength c
  if per = 0 then none else
  if 4 * piQ * area / (per * per) < 3 / 10 then none else
  some (c, area, cx, cy)

/-- The clamped centrality term of score_contour (pupil.py lines 144-149). -/
def centralityOf (roiW roiH : Nat) (cd : CandData) : ℚ :=
  let cx := cd.2.2.1
  let cy := cd.2.2.2
  let centerX := (roiW : ℤ) / 2
  let centerY := (roiH : ℤ) / 2
  max 0 (1 - (((|cx - centerX| : ℤ) : ℚ) / ((roiW : ℚ) * (1 / 2))
            + ((|cy - centerY| : ℤ) : ℚ) / ((roiH : ℚ) * (1 / 2))) / 2)

/-- Embedding of score_contour inside Pupil.detect_iris (pupil.py lines
144-150): area times 0.7 plus centrality times max_area times 0.3, where
max_area is 30 percent of the search-region area. -/
def scoreContour (roiW roiH : Nat) (cd : CandData) : ℚ :=
  cd.2.1 * (7 / 10) + centralityOf roiW roiH cd * (((roiW * roiH : Nat) : ℚ) * (3 / 10)) * (3 / 10)

/-- The formula the specification states for the score: 0.7 times area
plus 0.3 times centrality, centrality normalized to the unit interval. -/
def specScoreContour (roiW roiH : Nat) (cd : CandData) : ℚ :=
  cd.2.1 * (7 / 10) + centralityOf roiW roiH cd * (3 / 10)

/-- Selection of the best-scoring candidate, as done by the stable
descending sort plus taking the head (pupil.py lines 152-155): the
earliest candidate of maximal score. -/
def selectBestContour (roiW roiH : Nat) : List CandData → Option CandData
  | [] => none
  | c :: cs => some (cs.foldl
      (fun best cd =>
        if scoreContour roiW roiH best < scoreContour roiW roiH cd then cd else best) c)

/-- Embedding of Pupil.detect_iris (pupil.py lines 61-162). The top 40
percent of rows is cropped (int of h times 0.4 modelled as 2h/5), the ROI
is processed and contours are extracted, candidates filtered and the best
one picked; its centroid becomes the pupil position and its diameter is
computed by calculate_diameter. -/
def detect_iris (g : CvGeom) (f : Option Mat) : PupilResult :=
  match f with
  | none => absentPupil
  | some m =>
    if matSize m = 0 then absentPupil else
    let h := matH m
    let topMargin := 2 * h / 5
    let roi := m.drop topMargin
    let processed := g.imageProcessing roi
    let contours := g.findContoursTree processed
    if contours.isEmpty then absentPupil else
    let roiH := matH roi
    let roiW := matW roi
    let valid := contours.filterMap (candFilter g roiW roiH)
    if valid.isEmpty then absentPupil else
    match selectBestContour roiW roiH valid with
    | none => absentPupil
    | some cd =>
      { x := some ((cd.2.2.1 : ℤ) : ℚ)
        y := some (((cd.2.2.2 + (topMargin : ℤ)) : ℤ) : ℚ)
        diameter := calculate_diameter g (some cd.1) }

/-- One step of the contour-selection loop of
Pupil.measure_diameter_at_location: the accumulator holds the contour
that contained the point (loop breaks on it), the minimal absolute
distance so far (none models float inf), and the closest contour so far. -/
def selectHintAux (ppt : Contour → ℚ) :
    List Contour → Option ℚ → Option Contour → Option Contour × Option ℚ × Option Contour
  | [], md, cl => (none, md, cl)
  | c :: cs, md, cl =>
    if 0 ≤ ppt c then (some c, md, cl)
    else if (match md with | none => true | some v => decide (|ppt c| < v)) then
      selectHintAux ppt cs (some |ppt c|) (some c)
    else selectHintAux ppt cs md cl

/-- The contour selected by Pupil.measure_diameter_at_location (pupil.py
lines 228-246): the first contour containing the point (point-polygon
distance nonnegative), else the closest one if within 5 pixels. -/
def selectHintContour (ppt : Contour → ℚ) (cs : List Contour) : Option Contour :=
  match selectHintAux ppt cs none none with
  | (some c, _, _) => some c
  | (none, some v, some c) => if v < 5 then some c else none
  | (none, _, _) => none

/-- Embedding of Pupil.measure_diameter_at_location (pupil.py lines
211-249), returning the diameter field it leaves behind (none when it
returns early or selects no contour). -/
def measureDiameterAtLocation (g : CvGeom) (f : Option Mat) (tx ty : ℚ) : Option ℚ :=
  match f with
  | none => none
  | some m =>
    if matSize m = 0 then none else
    let processed := g.imageProcessing m
    let contours := g.findContoursExternal processed
    if contours.isEmpty then none else
    match selectHintContour (fun c => g.pointPolygonTest c (tx, ty)) contours with
    | some c => calculate_diameter g (some c)
    | none => none

/-- Embedding of Pupil.__init__ in the hinted branch (pupil.py lines
11-20): coordinates provided, diameter absent, so the hybrid measurement
runs while the hint coordinates are retained. -/
def pupilInitHinted (g : CvGeom) (f : Option Mat) (tx ty : ℚ) : PupilResult :=
  { x := some tx
    y := some ty
    diameter := measureDiameterAtLocation g f tx ty }

/- ======================= OutOfFrameMonitor (spec-modelled) ======================= -/

/-- State of the out-of-frame monitor: consecutive-miss counter and
alarm flag. -/
structure OOFState where
  missCount : Nat
  active : Bool
deriving DecidableEq

/-- Initial monitor state: counting from zero, alarm inactive. -/
def oofInit : OOFState := ⟨0, false⟩

/-- Modelled from the spec: safety_monitor.py is not among the sources,
so the OutOfFrameMonitor update is taken from section 4.3 of the
specification: on faceDetected false, increment the consecutive-miss
counter and alarm once it reaches the threshold; on faceDetected true,
reset the counter to zero and clear the alarm immediately. -/
def oofUpdate (threshold : Nat) (s : OOFState) (faceDetected : Bool) : OOFState :=
  if faceDetected then ⟨0, false⟩
  else
    let c := s.missCount + 1
    ⟨c, if threshold ≤ c then true else s.active⟩

/-- Run the monitor over a finite sequence of per-frame updates. -/
def oofRun (threshold : Nat) (us : List Bool) : OOFState :=
  us.foldl (oofUpdate threshold) oofInit

/-- Length of the trailing run of false entries (the current run of
consecutive missed-face frames). -/
def trailingFalseRun (us : List Bool) : Nat :=
  (us.reverse.takeWhile (fun b => !b)).length

/- ======================= concrete instances for evaluation ======================= -/

/-- A concrete instantiation of the OpenCV primitives used for evaluating
the embedding on concrete inputs. -/
def trivGeom : CvGeom where
  imageProcessing := id
  findContoursTree := fun _ => []
  findContoursExternal := fun _ => []
  otsuThreshold := id
  contourArea := fun _ => 0
  moments := fun _ => (0, 0, 0)
  arcLength := fun _ => 0
  minEnclosingCircleRadius := fun _ => 2
  boundingRect := fun _ => (4, 3)
  fitEllipse := fun _ => none
  pointPolygonTest := fun _ _ => -1

/-- A 2 by 2 uniform gray eye image; its EAR evaluates to 0. -/
def mat2x2 : Mat := [[100, 100], [100, 100]]

/-- A 2 by 1 image with black top row and white bottom row; its EAR
evaluates well above the closed threshold. -/
def matHighEar : Mat := [[0], [255]]

/- ======================= helper lemmas ======================= -/

theorem oofRun_append_single (t : Nat) (us : List Bool) (b : Bool) :
    oofRun t (us ++ [b]) = oofUpdate t (oofRun t us) b := by
  simp [oofRun, List.foldl_append]

theorem trailingFalseRun_append_true (us : List Bool) :
    trailingFalseRun (us ++ [true]) = 0 := by
  simp [trailingFalseRun]

theorem trailingFalseRun_append_false (us : List Bool) :
    trailingFalseRun (us ++ [false]) = trailingFalseRun us + 1 := by
  simp [trailingFalseRun, Nat.add_comm]

theorem oofRun_missCount (t : Nat) (us : List Bool) :
    (oofRun t us).missCount = trailingFalseRun us := by
  induction us using List.reverseRecOn with
  | nil => rfl
  | append_singleton us b ih =>
    cases b with
    | true => simp [oofRun_append_single, oofUpdate, trailingFalseRun_append_true]
    | false =>
      simp [oofRun_append_single, oofUpdate, trailingFalseRun_append_false, ← ih]

theorem oofRun_active_eq (t : Nat) (ht : 1 ≤ t) (us : List Bool) :
    (oofRun t us).active = decide (t ≤ trailingFalseRun us) := by
  induction us using List.reverseRecOn with
  | nil =>
    have : ¬ t ≤ trailingFalseRun [] := by simp [trailingFalseRun]; omega
    simp [oofRun, oofInit, this]
  | append_singleton us b ih =>
    cases b with
    | true =>
      have : ¬ t ≤ trailingFalseRun (us ++ [true]) := by
        rw [trailingFalseRun_append_true]; omega
      simp [oofRun_append_single, oofUpdate, this]
    | false =>
      have hm := oofRun_missCount t us
      rw [oofRun_append_single, trailingFalseRun_append_false]
      by_cases hc : t ≤ trailingFalseRun us + 1
      · simp [oofUpdate, hm, hc]
      · have hns : ¬ t ≤ trailingFalseRun us := by omega
        simp [oofUpdate, hm, hc, ih, hns]

/- ======================= claim theorems: classifier and fusion ======================= -/

/-- C3: the fused state is Closed exactly when at least one per-eye state
reports Closed: eye_state returns 0 iff is_blinking is true, and
is_blinking is true iff the left or the right eye state is 0. -/
theorem fused_eye_state_closed_iff_either_eye_closed
    (g : CvGeom) (cfg : Config) (st : GazeState) :
    (eyeState g cfg st = 0 ↔ isBlinking g cfg st = true)
      ∧ (isBlinking g cfg st = true
          ↔ (leftEyeState g cfg st = 0 ∨ rightEyeState g cfg st = 0)) := by
  constructor
  · unfold eyeState
    split <;> simp_all
  · simp [isBlinking]

/-- C10: with the tracker path fixed, _detect_eye_state_advanced returns
the same value with USE_MULTI_METHOD_DETECTION enabled as with it
disabled: the secondary histogram and contour checks are reached only
when the EAR is absent, yet both demand a present EAR below the closed
threshold, so they can never fire. -/
theorem multi_method_detection_no_effect
    (g : CvGeom) (cfg : Config) (tr : Option Nat) (f : Option Mat) :
    detectEyeStateAdvanced g { cfg with useMultiMethodDetection := true } tr f
      = detectEyeStateAdvanced g { cfg with useMultiMethodDetection := false } tr f := by
  obtain ⟨ut, um, ethr, hthr, cthr⟩ := cfg
  cases f with
  | none => rfl
  | some m =>
    by_cases hs : matSize m = 0
    · simp [detectEyeStateAdvanced, hs]
    · cases htr : (if ut then tr else none) with
      | some ts => simp [detectEyeStateAdvanced, hs, htr]
      | none =>
        cases he : calcImprovedEar m with
        | some v => simp [detectEyeStateAdvanced, hs, htr, he]
        | none => simp [detectEyeStateAdvanced, hs, htr, he, earCorroborates]

/-- C1: evaluation of the code at the failing input. With the tracker
eye state enabled and reporting Closed (0), and an eye image whose own
EAR signal is far above the closed threshold (so the primary signal does
not corroborate Closed), _detect_eye_state_advanced still returns
Closed, because the return of the tracker state is unconditional; the
claim and the comments in the code require Open here. -/
theorem tracker_closed_without_corroboration_still_closed :
    detectEyeStateAdvanced trivGeom defaultConfig (some 0) (some matHighEar) = 0
      ∧ calcImprovedEar matHighEar = some (255000000 / 127500001)
      ∧ defaultConfig.earThresholdClosed < 255000000 / 127500001 := by
  refine ⟨?_, ?_, by norm_num [defaultConfig]⟩
  · norm_num [detectEyeStateAdvanced, defaultConfig, matHighEar, calcImprovedEar,
      matSize, matH, matW, listMax, listMean]
  · norm_num [matHighEar, calcImprovedEar, matSize, matH, matW, listMax, listMean]

/-- C4 counterexample: a state in which the left pupil is located (x and
y set) but the right pupil is absent; the claim says the left eye must
report Open, yet the classifier reports it Closed, because the shortcut
requires pupils_located, which demands both pupils. -/
theorem per_eye_open_shortcut_fails_without_other_pupil :
    leftEyeState trivGeom defaultConfig
      { eyeLeft := some { frame := some mat2x2, pupil := some ⟨some 5, some 5, some 3⟩ }
        eyeRight := some { frame := some mat2x2, pupil := none }
        trackerEyeState := fun _ => none } = 0 := by
  norm_num [leftEyeState, pupilsLocated, getEyeRegionFrame, detectEyeStateAdvanced,
    defaultConfig, mat2x2, calcImprovedEar, matSize, matH, matW, listMax, listMean]

/-- C4 amended: the pupil-presence shortcut fires only when
pupils_located holds, i.e. the pupils of both eyes have x and y set; in that
case both per-eye classifiers report Open. When the pupil of the other eye is
absent the shortcut does not apply and the eye state falls through to
the image-based classifier. -/
theorem pupils_located_forces_open (g : CvGeom) (cfg : Config) (st : GazeState)
    (h : pupilsLocated st = true) :
    leftEyeState g cfg st = 1 ∧ rightEyeState g cfg st = 1 := by
  obtain ⟨oel, oer, trk⟩ := st
  cases oel with
  | none => simp [pupilsLocated] at h
  | some el =>
    cases oer with
    | none => simp [pupilsLocated] at h
    | some er =>
      cases hel : el.pupil with
      | none => rw [pupilsLocated] at h; simp [hel] at h
      | some pl =>
        cases her : er.pupil with
        | none => rw [pupilsLocated] at h; simp [hel, her] at h
        | some pr =>
          have hx : pl.x.isSome = true ∧ pl.y.isSome = true
              ∧ pr.x.isSome = true ∧ pr.y.isSome = true := by
            rw [pupilsLocated] at h; simp [hel, her] at h; tauto
          constructor
          · rw [leftEyeState]
            simp [hel, h, hx.1, hx.2.1]
          · rw [rightEyeState]
            simp [her, h, hx.2.2.1, hx.2.2.2]

/-- C4 amended witness: at a concrete state where both pupils are
located, both per-eye classifiers report Open. -/
theorem pupils_located_forces_open_witness :
    leftEyeState trivGeom defaultConfig
        { eyeLeft := some { frame := none, pupil := some ⟨some 1, some 2, none⟩ }
          eyeRight := some { frame := none, pupil := some ⟨some 3, some 4, none⟩ }
          trackerEyeState := fun _ => none } = 1
      ∧ rightEyeState trivGeom defaultConfig
        { eyeLeft := some { frame := none, pupil := some ⟨some 1, some 2, none⟩ }
          eyeRight := some { frame := none, pupil := some ⟨some 3, some 4, none⟩ }
          trackerEyeState := fun _ => none } = 1 :=
  pupils_located_forces_open trivGeom defaultConfig _ rfl

/- ======================= claim theorems: out-of-frame monitor ======================= -/

/-- C2: for every update sequence, the out-of-frame alarm is active
exactly when the trailing run of consecutive faceDetected false updates
has reached the threshold, and any faceDetected true update resets the
counter to zero and deactivates the alarm on that same update. -/
theorem oof_alarm_iff_trailing_run (t : Nat) (ht : 1 ≤ t) (us : List Bool) :
    ((oofRun t us).active = true ↔ t ≤ trailingFalseRun us)
      ∧ (∀ s : OOFState, oofUpdate t s true = ⟨0, false⟩) := by
  constructor
  · rw [oofRun_active_eq t ht us]
    simp
  · intro s
    simp [oofUpdate]

/-- C2 witness: with threshold 2, after two consecutive missed-face
updates the alarm is active, and a detected-face update resets an
alarmed state. -/
theorem oof_alarm_iff_trailing_run_witness :
    (oofRun 2 [false, false]).active = true
      ∧ oofUpdate 2 ⟨2, true⟩ true = ⟨0, false⟩ :=
  ⟨(oof_alarm_iff_trailing_run 2 (by norm_num) [false, false]).1.mpr (by decide),
    (oof_alarm_iff_trailing_run 2 (by norm_num) [false, false]).2 ⟨2, true⟩⟩

/- ======================= claim theorems: contour scoring (C5) ======================= -/

theorem foldl_pickMax_mem {α : Type} (f : α → ℚ) (c : α) (cs : List α) :
    cs.foldl (fun best cd => if f best < f cd then cd else best) c ∈ c :: cs := by
  induction cs generalizing c with
  | nil => simp
  | cons d cs ih =>
    simp only [List.foldl_cons]
    have h := ih (if f c < f d then d else c)
    by_cases hcd : f c < f d
    · rw [if_pos hcd] at h ⊢
      rcases List.mem_cons.mp h with h1 | h1
      · rw [h1]; simp
      · simp [h1]
    · rw [if_neg hcd] at h ⊢
      rcases List.mem_cons.mp h with h1 | h1
      · rw [h1]; simp
      · simp [h1]

theorem foldl_pickMax_ge {α : Type} (f : α → ℚ) (c : α) (cs : List α) :
    ∀ x ∈ c :: cs, f x ≤ f (cs.foldl (fun best cd => if f best < f cd then cd else best) c) := by
  induction cs generalizing c with
  | nil => intro x hx; simp at hx; simp [hx]
  | cons d cs ih =>
    intro x hx
    have hstep : f c ≤ f (if f c < f d then d else c) ∧ f d ≤ f (if f c < f d then d else c) := by
      by_cases hcd : f c < f d
      · simp [if_pos hcd]; exact le_of_lt hcd
      · simp [if_neg hcd]; exact le_of_not_lt hcd
    have hhead : f (if f c < f d then d else c)
        ≤ f ((d :: cs).foldl (fun best cd => if f best < f cd then cd else best) c) := by
      simp only [List.foldl_cons]
      exact ih (if f c < f d then d else c) _ (List.mem_cons_self _ _)
    rcases List.mem_cons.mp hx with h1 | h1
    · subst h1; exact le_trans hstep.1 hhead
    · rcases List.mem_cons.mp h1 with h2 | h2
      · subst h2; exact le_trans hstep.2 hhead
      · simp only [List.foldl_cons]
        exact ih (if f c < f d then d else c) x (List.mem_cons_of_mem _ h2)

/-- C5 counterexample: at a concrete candidate (area 10, centroid at the
center of a 10 by 10 region, so centrality 1) the score computed by
score_contour is 16, while the formula stated by the claim, 0.7 times
area plus 0.3 times centrality, gives 7.3: the code multiplies the
centrality term additionally by max_area (30 percent of the region
area). -/
theorem score_contour_formula_cex :
    scoreContour 10 10 ([((0 : ℤ), (0 : ℤ))], 10, 5, 5) = 16
      ∧ specScoreContour 10 10 ([((0 : ℤ), (0 : ℤ))], 10, 5, 5) = 73 / 10 := by
  constructor <;> norm_num [scoreContour, specScoreContour, centralityOf]

/-- C5 amended: every surviving candidate is scored as 0.7 times its
area plus 0.3 times its centrality times max_area, where max_area is 30
percent of the search-region area and centrality is normalized to the
unit interval and clamped at 0; the selection picks a candidate of
maximal score. -/
theorem select_best_maximizes_code_score (roiW roiH : Nat) (cands : List CandData)
    (cd : CandData) (h : selectBestContour roiW roiH cands = some cd) :
    cd ∈ cands
      ∧ (∀ ce ∈ cands, scoreContour roiW roiH ce ≤ scoreContour roiW roiH cd)
      ∧ 0 ≤ centralityOf roiW roiH cd ∧ centralityOf roiW roiH cd ≤ 1
      ∧ scoreContour roiW roiH cd
          = cd.2.1 * (7 / 10)
            + centralityOf roiW roiH cd * (((roiW * roiH : Nat) : ℚ) * (3 / 10)) * (3 / 10) := by
  have hcent0 : 0 ≤ centralityOf roiW roiH cd := le_max_left 0 _
  have hcent1 : centralityOf roiW roiH cd ≤ 1 := by
    unfold centralityOf
    apply max_le
    · norm_num
    · have h1 : (0 : ℚ) ≤ ((|cd.2.2.1 - (roiW : ℤ) / 2| : ℤ) : ℚ) / ((roiW : ℚ) * (1 / 2)) := by
        apply div_nonneg
        · exact_mod_cast abs_nonneg _
        · positivity
      have h2 : (0 : ℚ) ≤ ((|cd.2.2.2 - (roiH : ℤ) / 2| : ℤ) : ℚ) / ((roiH : ℚ) * (1 / 2)) := by
        apply div_nonneg
        · exact_mod_cast abs_nonneg _
        · positivity
      linarith
  cases cands with
  | nil => simp [selectBestContour] at h
  | cons c0 cs =>
    have hsome : cd = cs.foldl
        (fun best ce => if scoreContour roiW roiH best < scoreContour roiW roiH ce then ce
          else best) c0 := by
      simpa [selectBestContour] using h.symm
    refine ⟨?_, ?_, hcent0, hcent1, rfl⟩
    · rw [hsome]; exact foldl_pickMax_mem (scoreContour roiW roiH) c0 cs
    · intro ce hce
      rw [hsome]
      exact foldl_pickMax_ge (scoreContour roiW roiH) c0 cs ce hce

/-- C5 witness: on a concrete two-candidate list the selected candidate
dominates the other in code score. -/
theorem select_best_maximizes_code_score_witness :
    scoreContour 10 10 ([((0 : ℤ), (0 : ℤ))], 1, 0, 0)
      ≤ scoreContour 10 10 ([((0 : ℤ), (0 : ℤ))], 5, 5, 5) :=
  (select_best_maximizes_code_score 10 10
      [([((0 : ℤ), (0 : ℤ))], 1, 0, 0), ([((0 : ℤ), (0 : ℤ))], 5, 5, 5)]
      ([((0 : ℤ), (0 : ℤ))], 5, 5, 5)
      (by norm_num [selectBestContour, scoreContour, centralityOf])).2.1
    ([((0 : ℤ), (0 : ℤ))], 1, 0, 0) (by simp)

/- ======================= claim theorems: diameter (C6, C7) ======================= -/

/-- The diameter value the claim describes: the plain mean of all four
estimators, with the ellipse estimator falling back to the circle
estimate when an ellipse cannot be fit. -/
def specMeanOfFour (g : CvGeom) (c : Contour) : ℚ :=
  listMean (estimatorsOfContour g c)

/-- A 3-point triangular contour, a legitimate winning contour. -/
def tri3 : Contour := [(0, 0), (2, 0), (0, 2)]

/-- C6 counterexample: on a 3-point contour the claim prescribes the
mean of the four estimators with the ellipse estimator falling back to
the circle estimate (here the value 3), but calculate_diameter reports
no diameter at all: contours with fewer than 5 points are rejected
outright, not given a fallback. -/
theorem short_contour_diameter_cex :
    calculate_diameter trivGeom (some tri3) = none
      ∧ specMeanOfFour trivGeom tri3 = 3 := by
  constructor
  · norm_num [calculate_diameter, tri3]
  · norm_num [specMeanOfFour, estimatorsOfContour, trivGeom, listMean, ratSqrt]

theorem listMean_pos (l : List ℚ) (hne : l ≠ []) (hp : ∀ x ∈ l, 0 < x) :
    0 < listMean l := by
  have hs : 0 < l.sum := List.sum_pos l hp hne
  have hl : 0 < (l.length : ℚ) := by
    have : 0 < l.length := List.length_pos.mpr hne
    exact_mod_cast this
  exact div_pos hs hl

/-- C6 amended: for a contour with at least 5 points the reported
diameter is the mean of those of the four estimators that are strictly
positive (a nonpositive estimator, such as the area estimator of a
zero-area contour, is dropped; absent when all four are nonpositive);
for a contour with fewer than 5 points no diameter is reported at all. -/
theorem diameter_mean_of_positive_estimators (g : CvGeom) (c : Contour) :
    (c.length < 5 → calculate_diameter g (some c) = none)
      ∧ (5 ≤ c.length →
          calculate_diameter g (some c)
            = if ((estimatorsOfContour g c).filter (fun d => decide (0 < d))) = []
              then none
              else some (listMean ((estimatorsOfContour g c).filter (fun d => decide (0 < d))))) := by
  constructor
  · intro h
    simp [calculate_diameter, h]
  · intro h
    have hnl : ¬ c.length < 5 := by omega
    simp only [calculate_diameter, if_neg hnl]
    cases hl : (estimatorsOfContour g c).filter (fun d => decide (0 < d)) with
    | nil => simp [hl]
    | cons a as => simp [hl]

/-- C6 amended witness: on a concrete 5-point contour and concrete
geometry the diameter is the mean of the positive estimators. -/
theorem diameter_mean_of_positive_estimators_witness :
    calculate_diameter trivGeom (some [((0 : ℤ), (0 : ℤ)), (1, 0), (2, 1), (1, 2), (0, 1)])
      = some 4 := by
  have h := (diameter_mean_of_positive_estimators trivGeom
      [((0 : ℤ), (0 : ℤ)), (1, 0), (2, 1), (1, 2), (0, 1)]).2 (by norm_num)
  rw [h]
  have hf : (estimatorsOfContour trivGeom
      [((0 : ℤ), (0 : ℤ)), (1, 0), (2, 1), (1, 2), (0, 1)]).filter (fun d => decide (0 < d))
      = [4, 4, 4] := by
    norm_num [estimatorsOfContour, trivGeom, ratSqrt]
  rw [hf]
  rw [if_neg (by simp : ¬([4, 4, 4] : List ℚ) = [])]
  norm_num [listMean]

/-- C7: calculate_diameter never reports a nonpositive diameter, and
detect_iris never stores one: the result is absent or strictly
positive. -/
theorem pupil_diameter_positive_or_absent (g : CvGeom) (oc : Option Contour) (f : Option Mat) :
    (calculate_diameter g oc = none
        ∨ ∃ d, calculate_diameter g oc = some d ∧ 0 < d)
      ∧ ((detect_iris g f).diameter = none
        ∨ ∃ d, (detect_iris g f).diameter = some d ∧ 0 < d) := by
  have hcalc : ∀ oc2 : Option Contour, calculate_diameter g oc2 = none
      ∨ ∃ d, calculate_diameter g oc2 = some d ∧ 0 < d := by
    intro oc2
    cases oc2 with
    | none => left; rfl
    | some c =>
      by_cases hlen : c.length < 5
      · left; simp [calculate_diameter, hlen]
      · cases hl : (estimatorsOfContour g c).filter (fun d => decide (0 < d)) with
        | nil => left; simp [calculate_diameter, hlen, hl]
        | cons a as =>
          right
          refine ⟨listMean (a :: as), ?_, ?_⟩
          · simp [calculate_diameter, hlen, hl]
          · apply listMean_pos _ (by simp)
            intro x hx
            have hmem : x ∈ (estimatorsOfContour g c).filter (fun d => decide (0 < d)) := by
              rw [hl]; exact hx
            have := List.of_mem_filter hmem
            simpa using this
  refine ⟨hcalc oc, ?_⟩
  cases f with
  | none => left; rfl
  | some m =>
    simp only [detect_iris]
    split
    · left; rfl
    · split
      · left; rfl
      · split
        · left; rfl
        · split
          · left; rfl
          · dsimp only
            exact hcalc _

/- ======================= claim theorems: degenerate inputs (C9) ======================= -/

theorem candFilter_none_of_degenerate (g : CvGeom) (roiW roiH : Nat) (c : Contour)
    (h : g.arcLength c = 0 ∨ (g.moments c).1 = 0) :
    candFilter g roiW roiH c = none := by
  simp only [candFilter]
  split_ifs with h1 h2 h3 h4 h5
  any_goals rfl
  rcases h with h | h
  · exact absurd h h4
  · exact absurd h h2

/-- C9: degenerate inputs to pupil localization yield an absent result
and never an error (totality of the embedding): a missing frame, a frame
of zero size, and frames all of whose contours have zero perimeter or
zero moment produce the all-absent pupil; the hinted measurement
likewise reports an absent diameter on a missing or zero-size frame. -/
theorem degenerate_inputs_absent (g : CvGeom) (m : Mat) (tx ty : ℚ) :
    detect_iris g none = absentPupil
      ∧ (matSize m = 0 → detect_iris g (some m) = absentPupil)
      ∧ ((∀ c ∈ g.findContoursTree (g.imageProcessing (m.drop (2 * matH m / 5))),
            g.arcLength c = 0 ∨ (g.moments c).1 = 0)
          → detect_iris g (some m) = absentPupil)
      ∧ measureDiameterAtLocation g none tx ty = none
      ∧ (matSize m = 0 → measureDiameterAtLocation g (some m) tx ty = none) := by
  refine ⟨rfl, ?_, ?_, rfl, ?_⟩
  · intro h
    simp [detect_iris, h]
  · intro hall
    by_cases hs : matSize m = 0
    · simp [detect_iris, hs]
    · have hv : ∀ a ∈ g.findContoursTree (g.imageProcessing (m.drop (2 * matH m / 5))),
          candFilter g (matW (m.drop (2 * matH m / 5))) (matH (m.drop (2 * matH m / 5))) a
            = none := by
        intro a ha
        exact candFilter_none_of_degenerate g _ _ a (hall a ha)
      simp [detect_iris, hs, List.filterMap_eq_nil_iff.mpr hv]
  · intro h
    simp [measureDiameterAtLocation, h]

/-- C9 witness: on the concrete zero-size image with one empty row, both
localization paths report absent. -/
theorem degenerate_inputs_absent_witness :
    detect_iris trivGeom (some [[]]) = absentPupil
      ∧ measureDiameterAtLocation trivGeom (some [[]]) 3 4 = none :=
  ⟨(degenerate_inputs_absent trivGeom [[]] 3 4).2.1 rfl,
   (degenerate_inputs_absent trivGeom [[]] 3 4).2.2.2.2 rfl⟩

/- ======================= claim theorems: hinted selection (C8) ======================= -/

theorem selectHintAux_cons_pos (ppt : Contour → ℚ) (c : Contour) (cs : List Contour)
    (md : Option ℚ) (cl : Option Contour) (hpos : 0 ≤ ppt c) :
    selectHintAux ppt (c :: cs) md cl = (some c, md, cl) := by
  simp [selectHintAux, if_pos hpos]

theorem selectHintAux_cons_none (ppt : Contour → ℚ) (c : Contour) (cs : List Contour)
    (hneg : ¬ 0 ≤ ppt c) :
    selectHintAux ppt (c :: cs) none none = selectHintAux ppt cs (some |ppt c|) (some c) := by
  simp [selectHintAux, if_neg hneg]

theorem selectHintAux_cons_neg (ppt : Contour → ℚ) (c : Contour) (cs : List Contour)
    (v0 : ℚ) (c0 : Contour) (hneg : ¬ 0 ≤ ppt c) :
    selectHintAux ppt (c :: cs) (some v0) (some c0)
      = if |ppt c| < v0 then selectHintAux ppt cs (some |ppt c|) (some c)
        else selectHintAux ppt cs (some v0) (some c0) := by
  simp only [selectHintAux, if_neg hneg]
  by_cases hlt : |ppt c| < v0 <;> simp [hlt]

theorem selectHintAux_first_none (ppt : Contour → ℚ) :
    ∀ (cs : List Contour) (md : Option ℚ) (cl : Option Contour),
      (∀ a ∈ cs, ppt a < 0) → (selectHintAux ppt cs md cl).1 = none := by
  intro cs
  induction cs with
  | nil => intro md cl h; rfl
  | cons c cs ih =>
    intro md cl h
    have hneg : ¬ 0 ≤ ppt c := not_le.mpr (h c (List.mem_cons_self c cs))
    have htail : ∀ a ∈ cs, ppt a < 0 := fun a ha => h a (List.mem_cons_of_mem c ha)
    simp only [selectHintAux, if_neg hneg]
    split
    · exact ih _ _ htail
    · exact ih _ _ htail

theorem selectHintAux_min (ppt : Contour → ℚ) :
    ∀ (cs : List Contour) (v0 : ℚ) (c0 : Contour),
      (∀ a ∈ cs, ppt a < 0) → v0 = |ppt c0| →
      ∃ v1 c1, (selectHintAux ppt cs (some v0) (some c0)).2.1 = some v1
        ∧ (selectHintAux ppt cs (some v0) (some c0)).2.2 = some c1
        ∧ v1 = |ppt c1| ∧ (c1 ∈ cs ∨ c1 = c0) ∧ v1 ≤ v0
        ∧ (∀ a ∈ cs, v1 ≤ |ppt a|) := by
  intro cs
  induction cs with
  | nil =>
    intro v0 c0 h hv
    exact ⟨v0, c0, rfl, rfl, hv, Or.inr rfl, le_refl v0, by simp⟩
  | cons c cs ih =>
    intro v0 c0 h hv
    have hneg : ¬ 0 ≤ ppt c := not_le.mpr (h c (List.mem_cons_self c cs))
    have htail : ∀ a ∈ cs, ppt a < 0 := fun a ha => h a (List.mem_cons_of_mem c ha)
    rw [selectHintAux_cons_neg ppt c cs v0 c0 hneg]
    by_cases hlt : |ppt c| < v0
    · rw [if_pos hlt]
      obtain ⟨v1, c1, h1, h2, h3, h4, h5, h6⟩ := ih (|ppt c|) c htail rfl
      refine ⟨v1, c1, h1, h2, h3, ?_, ?_, ?_⟩
      · rcases h4 with h4 | h4
        · exact Or.inl (List.mem_cons_of_mem c h4)
        · exact Or.inl (h4 ▸ List.mem_cons_self c cs)
      · exact le_of_lt (lt_of_le_of_lt h5 hlt)
      · intro a ha
        rcases List.mem_cons.mp ha with ha | ha
        · subst ha; exact h5
        · exact h6 a ha
    · rw [if_neg hlt]
      obtain ⟨v1, c1, h1, h2, h3, h4, h5, h6⟩ := ih v0 c0 htail hv
      refine ⟨v1, c1, h1, h2, h3, ?_, h5, ?_⟩
      · rcases h4 with h4 | h4
        · exact Or.inl (List.mem_cons_of_mem c h4)
        · exact Or.inr h4
      · intro a ha
        rcases List.mem_cons.mp ha with ha | ha
        · subst ha
          exact le_trans h5 (le_of_not_lt hlt)
        · exact h6 a ha

theorem selectHintAux_first_some (ppt : Contour → ℚ) :
    ∀ (pre suf : List Contour) (c : Contour) (md : Option ℚ) (cl : Option Contour),
      (∀ a ∈ pre, ppt a < 0) → 0 ≤ ppt c →
      (selectHintAux ppt (pre ++ c :: suf) md cl).1 = some c := by
  intro pre
  induction pre with
  | nil =>
    intro suf c md cl hpre hc
    rw [List.nil_append, selectHintAux_cons_pos ppt c suf md cl hc]
  | cons a pre ih =>
    intro suf c md cl hpre hc
    have ha : ¬ 0 ≤ ppt a := not_le.mpr (hpre a (List.mem_cons_self a pre))
    have hpre2 : ∀ b ∈ pre, ppt b < 0 := fun b hb => hpre b (List.mem_cons_of_mem a hb)
    rw [List.cons_append]
    simp only [selectHintAux, if_neg ha]
    split
    · exact ih suf c _ _ hpre2 hc
    · exact ih suf c _ _ hpre2 hc

theorem selectHintContour_far (ppt : Contour → ℚ) (cs2 : List Contour)
    (hf : ∀ a ∈ cs2, ppt a ≤ -5) : selectHintContour ppt cs2 = none := by
  cases cs2 with
  | nil => rfl
  | cons c cs2 =>
    have hneg : ∀ a ∈ c :: cs2, ppt a < 0 := by
      intro a ha
      have := hf a ha
      linarith
    have hc : ¬ 0 ≤ ppt c := not_le.mpr (hneg c (List.mem_cons_self c cs2))
    have htail : ∀ a ∈ cs2, ppt a < 0 :=
      fun a ha => hneg a (List.mem_cons_of_mem c ha)
    obtain ⟨v1, c1, h1, h2, h3, h4, h5, h6⟩ := selectHintAux_min ppt cs2 (|ppt c|) c htail rfl
    have hfirst := selectHintAux_first_none ppt (c :: cs2) none none hneg
    unfold selectHintContour
    rw [selectHintAux_cons_none ppt c cs2 hc] at hfirst ⊢
    rcases he : selectHintAux ppt cs2 (some |ppt c|) (some c) with ⟨b, md, cl⟩
    rw [he] at hfirst h1 h2
    dsimp at hfirst h1 h2
    subst hfirst h1 h2
    have hc1 : ppt c1 ≤ -5 := hf c1 (by
      rcases h4 with h4 | h4
      · exact List.mem_cons_of_mem c h4
      · exact h4 ▸ List.mem_cons_self c cs2)
    have hges : ¬ v1 < 5 := by
      have habs : |ppt c1| = -(ppt c1) := abs_of_neg (by linarith)
      rw [h3, habs]
      linarith
    simp [hges]

/-- C8: hinted-mode contour selection. First, a contour on whose
boundary or interior the hint lies (point-polygon distance at least 0,
so distance exactly 0 counts as inside) is selected as soon as every
contour before it fails the containment test. Second, when no contour
contains the hint, a selected contour is always within 5 pixels of the
hint and of minimal distance. Third, when every contour is at least 5
pixels away nothing is selected, and in that case the measured diameter
is absent. Finally, the hint coordinates are always retained as the
pupil location. -/
theorem hinted_mode_contour_selection (ppt : Contour → ℚ) (cs : List Contour) :
    (∀ (pre suf : List Contour) (c : Contour),
        (∀ a ∈ pre, ppt a < 0) → 0 ≤ ppt c →
        selectHintContour ppt (pre ++ c :: suf) = some c)
      ∧ ((∀ a ∈ cs, ppt a < 0) → ∀ cd, selectHintContour ppt cs = some cd →
          cd ∈ cs ∧ |ppt cd| < 5 ∧ ∀ a ∈ cs, |ppt cd| ≤ |ppt a|)
      ∧ ((∀ a ∈ cs, ppt a ≤ -5) → selectHintContour ppt cs = none)
      ∧ (∀ (g : CvGeom) (f : Option Mat) (tx ty : ℚ),
          (pupilInitHinted g f tx ty).x = some tx ∧ (pupilInitHinted g f tx ty).y = some ty)
      ∧ (∀ (g : CvGeom) (m : Mat) (tx ty : ℚ),
          (∀ a ∈ g.findContoursExternal (g.imageProcessing m),
            g.pointPolygonTest a (tx, ty) ≤ -5)
          → measureDiameterAtLocation g (some m) tx ty = none) := by
  refine ⟨?_, ?_, selectHintContour_far ppt cs, ?_, ?_⟩
  · intro pre suf c hpre hc
    have h1 := selectHintAux_first_some ppt pre suf c none none hpre hc
    unfold selectHintContour
    rcases he : selectHintAux ppt (pre ++ c :: suf) none none with ⟨b, md, cl⟩
    rw [he] at h1
    dsimp at h1
    subst h1
    rfl
  · intro hneg cd h
    cases cs with
    | nil => simp [selectHintContour, selectHintAux] at h
    | cons c cs2 =>
      have hc : ¬ 0 ≤ ppt c := not_le.mpr (hneg c (List.mem_cons_self c cs2))
      have htail : ∀ a ∈ cs2, ppt a < 0 :=
        fun a ha => hneg a (List.mem_cons_of_mem c ha)
      obtain ⟨v1, c1, h1, h2, h3, h4, h5, h6⟩ := selectHintAux_min ppt cs2 (|ppt c|) c htail rfl
      have hfirst := selectHintAux_first_none ppt (c :: cs2) none none hneg
      unfold selectHintContour at h
      rw [selectHintAux_cons_none ppt c cs2 hc] at hfirst h
      rcases he : selectHintAux ppt cs2 (some |ppt c|) (some c) with ⟨b, md, cl⟩
      rw [he] at hfirst h1 h2 h
      dsimp at hfirst h1 h2
      subst hfirst h1 h2
      dsimp only at h
      by_cases hv : v1 < 5
      · rw [if_pos hv] at h
        have hcd : cd = c1 := by
          rw [Option.some_inj] at h
          exact h.symm
        subst hcd
        refine ⟨?_, ?_, ?_⟩
        · rcases h4 with h4 | h4
          · exact List.mem_cons_of_mem c h4
          · exact h4 ▸ List.mem_cons_self c cs2
        · rw [← h3]; exact hv
        · intro a ha
          rw [← h3]
          rcases List.mem_cons.mp ha with ha | ha
          · subst ha; exact h5
          · exact h6 a ha
      · rw [if_neg hv] at h
        exact absurd h (by simp)
  · intro g f tx ty
    exact ⟨rfl, rfl⟩
  · intro g m tx ty hall
    by_cases hs : matSize m = 0
    · simp [measureDiameterAtLocation, hs]
    · simp only [measureDiameterAtLocation, if_neg hs]
      split
      · rfl
      · rw [selectHintContour_far (fun c => g.pointPolygonTest c (tx, ty))
          (g.findContoursExternal (g.imageProcessing m)) hall]

/-- C8 witness: a hint on the boundary of the second contour (distance
0) selects that contour even though the first contour does not contain
the hint; and with the only contour 10 pixels away nothing is selected. -/
theorem hinted_mode_contour_selection_witness :
    selectHintContour (fun c => if c = [((0 : ℤ), (0 : ℤ))] then 0 else -10)
        [[((9 : ℤ), (9 : ℤ))], [((0 : ℤ), (0 : ℤ))]] = some [((0 : ℤ), (0 : ℤ))]
      ∧ selectHintContour (fun c => if c = [((0 : ℤ), (0 : ℤ))] then 0 else -10)
        [[((9 : ℤ), (9 : ℤ))]] = none := by
  constructor
  · exact (hinted_mode_contour_selection
        (fun c => if c = [((0 : ℤ), (0 : ℤ))] then 0 else -10) []).1
      [[((9 : ℤ), (9 : ℤ))]] [] [((0 : ℤ), (0 : ℤ))]
      (by intro a ha; simp at ha; subst ha; norm_num) (by norm_num)
  · exact (hinted_mode_contour_selection
        (fun c => if c = [((0 : ℤ), (0 : ℤ))] then 0 else -10)
        [[((9 : ℤ), (9 : ℤ))]]).2.2.1
      (by intro a ha; simp at ha; subst ha; norm_num)
